import Mathlib

/-!
Shallow embedding of the provider-side invoice tracker
(`src/session/pingpong/invoice_tracker.go`, package `pingpong`).

Pure data is translated directly; the tracker's mutable fields become an
explicit `InvoiceTracker` record threaded through the step functions; every
interaction with an external collaborator (peer transport, invoice storage,
accountant caller, promise storage, event bus) is recorded as an `Event` in
an ordered trace and its outcome is supplied by a `RoundEnv` record, so a
round of the Go select loop becomes a function
`InvoiceTracker → Option Err × InvoiceTracker × List Event`.

Go `uint64` counters are `Nat` with an explicit `% 2^64` at the increments
(the only place overflow could matter); `time.Duration` is `Nat`
nanoseconds; `float64` arithmetic on elapsed time is modelled exactly over
`ℚ` with `math.Trunc`/`uint64(...)` on nonnegative values rendered as the
rational floor.
-/

namespace Pingpong

/-- `identity.Identity` — an address string. -/
structure Identity where
  address : String
deriving DecidableEq, Repr

/-- `crypto.Invoice` from the payments library, as used by the tracker:
agreement id, cumulative amount, transactor fee, hashlock hex string and
the provider address. -/
structure Invoice where
  agreementID : Nat
  agreementTotal : Nat
  transactorFee : Nat
  hashlock : String
  provider : String
deriving DecidableEq, Repr

/-- The embedded `crypto.Promise` of an exchange message: the fields the
tracker reads (`Amount`, `Hashlock`, `ChannelID`). Bytes are `List Nat`. -/
structure Promise where
  amount : Nat
  fee : Nat
  hashlock : List Nat
  channelID : List Nat
deriving DecidableEq, Repr

/-- `crypto.ExchangeMessage`: the embedded promise plus the cumulative
`AgreementTotal` the tracker consults for first-billing leniency. -/
structure ExchangeMessage where
  promise : Promise
  agreementID : Nat
  agreementTotal : Nat
deriving DecidableEq, Repr

/-- `AccountantPromise` as persisted per (provider, accountant). -/
structure AccountantPromise where
  promise : Promise
  r : String
  revealed : Bool
  agreementID : Nat
deriving DecidableEq, Repr

/-- In-memory `lastInvoice`: the invoice most recently sent and its
preimage `r`. -/
structure LastInvoice where
  invoice : Invoice
  r : List Nat
deriving DecidableEq, Repr

/-- Go errors, structured: the sentinel values the tracker compares
against, `errors.Wrap msg cause`, `errors.New` and external causes as
strings. -/
inductive Err where
  | exchangeWaitTimeout
  | exchangeValidationFailed
  | consumerPromiseValidationFailed
  | consumerNotRegistered
  | accountantFeeTooLarge
  | newError (msg : String)
  | external (msg : String)
  | wrap (msg : String) (cause : Err)
deriving DecidableEq, Repr

/-- One externally visible interaction of a round, in trace order. -/
inductive Event where
  | sentInvoice (inv : Invoice)
  | storedInvoice (inv : Invoice)
  | setLastExchangeMessage (em : ExchangeMessage)
  | promiseGot
  | revealedR (r : String) (provider : String) (agreementID : Nat)
  | storedAccountantPromise (ap : AccountantPromise)
  | storedR (agreementID : Nat) (r : String)
  | requestedPromise (em : ExchangeMessage)
  | published (promise : Promise) (r : List Nat) (accountantID providerID : Identity)
  | gotR (agreementID : Nat)
  | gotNewAgreementID
deriving DecidableEq, Repr

/-- 2^64, the modulus of Go's `uint64`. -/
def u64Mod : Nat := 2 ^ 64

/-! ### Hex codec (`encoding/hex`, `strings.TrimPrefix`) -/

/-- Value of one hex digit, `none` if the character is not a hex digit
(as in Go's `encoding/hex`). -/
def hexDigitVal (c : Char) : Option Nat :=
  if '0' ≤ c ∧ c ≤ '9' then some (c.toNat - '0'.toNat)
  else if 'a' ≤ c ∧ c ≤ 'f' then some (c.toNat - 'a'.toNat + 10)
  else if 'A' ≤ c ∧ c ≤ 'F' then some (c.toNat - 'A'.toNat + 10)
  else none

/-- `hex.DecodeString` on a char list: fails on odd length or a non-hex
digit, otherwise yields the byte list. -/
def hexDecodeChars : List Char → Option (List Nat)
  | [] => some []
  | [_] => none
  | a :: b :: rest => do
    let hi ← hexDigitVal a
    let lo ← hexDigitVal b
    let tail ← hexDecodeChars rest
    pure ((hi * 16 + lo) :: tail)

/-- `hex.DecodeString`. -/
def hexDecode (s : String) : Option (List Nat) :=
  hexDecodeChars s.toList

/-- Lowercase hex digit character of `n < 16`. -/
def hexDigitChar (n : Nat) : Char :=
  if n < 10 then Char.ofNat ('0'.toNat + n) else Char.ofNat ('a'.toNat + n - 10)

/-- `hex.EncodeToString`: two lowercase hex digits per byte. -/
def hexEncode (bs : List Nat) : String :=
  String.mk ((bs.map (fun b => [hexDigitChar (b / 16 % 16), hexDigitChar (b % 16)])).flatten)

/-- `strings.TrimPrefix(s, "0x")`. -/
def trim0x (s : String) : String :=
  match s.toList with
  | '0' :: 'x' :: rest => String.mk rest
  | _ => s

/-! ### Addresses and external crypto

`common.Address`, `common.HexToAddress`, `addr.Hex()`,
`em.IsMessageValid`, `Promise.RecoverSigner` and the Keccak hash inside
`crypto.CreateInvoice` live in external libraries (go-ethereum, payments),
not in this repository. They are abstracted as a record of operations: an
abstract address type `Nat`, with hex parsing/printing and the hash as
supplied functions. -/

structure CryptoOps where
  /-- `common.HexToAddress`. -/
  hexToAddress : String → Nat
  /-- `Address.Hex()`, the checksummed hex form; injective on addresses. -/
  addressHex : Nat → String
  /-- The 32-byte hash `H`, hex-encoded, used for `Invoice.Hashlock`. -/
  hashHex : List Nat → String

/-- Outcome of `accountantPromiseStorage.Get`: the record, `ErrNotFound`,
or another storage error. -/
inductive PromiseGetResult where
  | found (ap : AccountantPromise)
  | notFound
  | failure (msg : String)
deriving DecidableEq, Repr

/-- Outcomes of the external calls of one round, fixed up front: the
environment the round runs against. Per-agreement-id outcomes for the
R-recovery walk are functions of the id. -/
structure RoundEnv where
  /-- `em.IsMessageValid(peerAddr)`. -/
  isMessageValid : Bool
  /-- `em.Promise.RecoverSigner()`: recovered address or error. -/
  recoverSigner : Except String Nat
  /-- `channelAddressCalculator.GetChannelAddress(peer)`. -/
  channelAddr : Except String Nat
  /-- `peerInvoiceSender.Send`: `none` is success. -/
  sendResult : Option String
  /-- `invoiceStorage.Store`. -/
  storeInvoiceResult : Option String
  /-- `accountantPromiseStorage.Get`. -/
  promiseGet : PromiseGetResult
  /-- `accountantCaller.RevealR` in Step A. -/
  revealRResult : Option String
  /-- `accountantPromiseStorage.Store` of the revealed record. -/
  storeRevealedResult : Option String
  /-- `invoiceStorage.StoreR`. -/
  storeRResult : Option String
  /-- `accountantCaller.RequestPromise`: promise or error message. -/
  requestPromiseResult : Except String Promise
  /-- `accountantPromiseStorage.Store` of the new record. -/
  storePromiseResult : Option String
  /-- `invoiceStorage.GetR` during R-recovery, by agreement id. -/
  getR : Nat → Except String String
  /-- `accountantCaller.RevealR` during R-recovery, by walked id:
  `true` is success. -/
  recoveryReveal : Nat → Bool

/-- The `InvoiceTracker` record: its immutable configuration and the
fields the round functions mutate (`lastInvoice`, `lastExchangeMessage`,
the two failure counters, `transactorFee`). -/
structure InvoiceTracker where
  peer : Identity
  providerID : Identity
  accountantID : Identity
  priceAmount : Nat
  chargePeriod : Nat
  maxNotReceivedExchangeMessages : Nat
  maxAccountantFailureCount : Nat
  maxRRecoveryLength : Nat
  transactorFee : Nat
  accountantFailureCount : Nat
  notReceivedExchangeMessageCount : Nat
  lastInvoice : LastInvoice
  lastExchangeMessage : ExchangeMessage
deriving Repr

/-- `chargePeriodLeeway = time.Hour * 2` in nanoseconds. -/
def chargePeriodLeeway : Nat := 7200000000000

/-- `calculateMaxNotReceivedExchangeMessageCount`:
`math.Round(leeway / period)` — round half away from zero of the exact
quotient, `⌊leeway/period + 1/2⌋ = (2·leeway + period) / (2·period)` on
naturals (Go computes the quotient in `float64`; durations this size are
exact there). -/
def calculateMaxNotReceivedExchangeMessageCount (chargeLeeway chargePeriod : Nat) : Nat :=
  (2 * chargeLeeway + chargePeriod) / (2 * chargePeriod)

/-! ### `validateExchangeMessage` -/

/-- `validateExchangeMessage`: the five checks in source order, first
failure returned immediately. -/
def validateExchangeMessage (ops : CryptoOps) (env : RoundEnv) (it : InvoiceTracker)
    (em : ExchangeMessage) : Option Err :=
  let peerAddr := ops.hexToAddress it.peer.address
  if !env.isMessageValid then some .exchangeValidationFailed
  else
    match env.recoverSigner with
    | .error msg => some (.wrap "could not recover promise signature" (.external msg))
    | .ok signer =>
      if ops.addressHex signer ≠ ops.addressHex peerAddr then
        some (.newError "identity missmatch")
      else if em.promise.amount < it.lastExchangeMessage.promise.amount then
        some (.wrap "invalid amount" .consumerPromiseValidationFailed)
      else
        match hexDecode (trim0x it.lastInvoice.invoice.hashlock) with
        | none => some (.wrap "could not decode hashlock" (.external "hex decode error"))
        | some hashlock =>
          if hashlock ≠ em.promise.hashlock then
            some (.wrap "missmatching hashlock" .consumerPromiseValidationFailed)
          else
            match env.channelAddr with
            | .error msg => some (.wrap "could not generate channel address" (.external msg))
            | .ok addr =>
              match hexDecode (trim0x (ops.addressHex addr)) with
              | none => some (.wrap "could not decode expected chanel" (.external "hex decode error"))
              | some expectedChannel =>
                if expectedChannel ≠ em.promise.channelID then
                  some (.wrap "invalid channel address" .consumerPromiseValidationFailed)
                else none

/-! ### Step functions -/

/-- What the select in `receiveExchangeMessageOrTimeout` observed first:
an exchange message, the wait timeout, or the stop signal. -/
inductive Intake where
  | message (em : ExchangeMessage)
  | timeout
  | stopSignal
deriving DecidableEq, Repr

/-- `startsWithSeq needle hay`: `hay` begins with `needle`. -/
def startsWithSeq : List Char → List Char → Bool
  | [], _ => true
  | _ :: _, [] => false
  | a :: as, b :: bs => a == b && startsWithSeq as bs

/-- `containsSeq needle hay`: `needle` occurs contiguously in `hay`. -/
def containsSeq (needle : List Char) : List Char → Bool
  | [] => needle.isEmpty
  | c :: rest => startsWithSeq needle (c :: rest) || containsSeq needle rest

/-- `strings.Contains hay needle`. -/
def strContains (hay needle : String) : Bool :=
  containsSeq needle.toList hay.toList

/-- `uint64(math.Trunc q)` for the nonnegative quotients the tracker
computes: the rational floor, clamped at zero. -/
def ratTrunc (q : ℚ) : Nat := q.floor.toNat

/-- Modelled from the spec: `crypto.CreateInvoice` belongs to the external
payments library and is absent from src/. Per §4.2 the invoice factory is
a pure function of `(agreement_id, amount, transactor_fee, R)` with
`hashlock = H(R)`; the argument order is also fixed by the call in
`sendInvoiceExpectExchangeMessage`, whose second argument is the requested
amount and whose third is the transactor fee. -/
def createInvoice (ops : CryptoOps) (agreementID amount fee : Nat) (r : List Nat) : Invoice :=
  { agreementID := agreementID
    agreementTotal := amount
    transactorFee := fee
    hashlock := ops.hashHex r
    provider := "" }

/-- `generateInitialInvoice`: allocate an agreement id, build the invoice
`CreateInvoice(agreementID, paymentInfo.GetPrice().Amount, 0, r)` with a
fresh `r`, keep it only in memory as `lastInvoice`. -/
def generateInitialInvoice (ops : CryptoOps) (it : InvoiceTracker)
    (newAgreementID : Except String Nat) (freshR : List Nat) :
    Option Err × InvoiceTracker × List Event :=
  match newAgreementID with
  | .error msg =>
    (some (.wrap "could not get new agreement id" (.external msg)), it, [.gotNewAgreementID])
  | .ok agreementID =>
    let invoice := { createInvoice ops agreementID it.priceAmount 0 freshR
                       with provider := it.providerID.address }
    (none, { it with lastInvoice := ⟨invoice, freshR⟩ }, [.gotNewAgreementID])

/-- The agreement ids visited by `for i := currentAgreement; i >= minBound; i--`:
descending from `current` to `minBound`, empty when `current < minBound`.
(The Go loop counter is `uint64`; at every call site `minBound ≥ 1`, so the
loop stops rather than wrapping and this list is exactly its itinerary.) -/
def recoveryIds (current minBound : Nat) : List Nat :=
  (List.range' minBound (current + 1 - minBound)).reverse

/-- The body of the `initiateRRecovery` loop over the walked ids: load `R`
by id (any load failure is fatal), reveal it for the *current* agreement id,
stop at the first successful reveal, report failure if the walk ends. -/
def rRecoveryWalk (env : RoundEnv) (provider : String) (current : Nat) :
    List Nat → Option Err × List Event
  | [] => (some (.newError "R recovery failed"), [])
  | i :: rest =>
    match env.getR i with
    | .error msg => (some (.wrap "could not get R" (.external msg)), [.gotR i])
    | .ok r =>
      if env.recoveryReveal i then (none, [.gotR i, .revealedR r provider current])
      else
        let step := rRecoveryWalk env provider current rest
        (step.1, .gotR i :: .revealedR r provider current :: step.2)

/-- `initiateRRecovery`. -/
def initiateRRecovery (env : RoundEnv) (it : InvoiceTracker) :
    Option Err × List Event :=
  let currentAgreement := it.lastInvoice.invoice.agreementID
  let minBound := if currentAgreement > it.maxRRecoveryLength
                  then currentAgreement - it.maxRRecoveryLength else 1
  rRecoveryWalk env it.providerID.address currentAgreement
    (recoveryIds currentAgreement minBound)

/-- The tail of `receiveExchangeMessageOrTimeout` after the reveal block
(spec Steps B–E): `StoreR`, `RequestPromise` with the `400 Bad Request`
recovery and the failure-count threshold, the new promise record store,
and the event publish with its second counter reset. -/
def stepsBtoE (env : RoundEnv) (it : InvoiceTracker) (pm : ExchangeMessage)
    (tr : List Event) : Option Err × InvoiceTracker × List Event :=
  let rHex := hexEncode it.lastInvoice.r
  let tr := tr ++ [Event.storedR it.lastInvoice.invoice.agreementID rHex]
  match env.storeRResult with
  | some msg => (some (.wrap "could not store r" (.external msg)), it, tr)
  | none =>
    let tr := tr ++ [Event.requestedPromise pm]
    match env.requestPromiseResult with
    | .error msg =>
      if strContains msg "400 Bad Request" then
        let rec400 := initiateRRecovery env it
        let tr := tr ++ rec400.2
        match rec400.1 with
        | some _ => (some (.wrap "could not recover R" (.external msg)), it, tr)
        | none =>
          let it := { it with
            accountantFailureCount := (it.accountantFailureCount + 1) % u64Mod }
          if it.accountantFailureCount > it.maxAccountantFailureCount then
            (some (.wrap "could not call accountant" (.external msg)), it, tr)
          else (none, it, tr)
      else
        let it := { it with
          accountantFailureCount := (it.accountantFailureCount + 1) % u64Mod }
        if it.accountantFailureCount > it.maxAccountantFailureCount then
          (some (.wrap "could not call accountant" (.external msg)), it, tr)
        else (none, it, tr)
    | .ok promise =>
      let it := { it with accountantFailureCount := 0 }
      let ap : AccountantPromise :=
        { promise := promise
          r := rHex
          revealed := false
          agreementID := it.lastInvoice.invoice.agreementID }
      let tr := tr ++ [Event.storedAccountantPromise ap]
      match env.storePromiseResult with
      | some msg => (some (.wrap "could not store accountant promise" (.external msg)), it, tr)
      | none =>
        let tr := tr ++ [Event.published promise it.lastInvoice.r it.accountantID it.providerID]
        let it := { it with accountantFailureCount := 0 }
        (none, it, tr)

/-- `receiveExchangeMessageOrTimeout`: validate the message, record it as
`lastExchangeMessage`, Step A (reveal the previous round's `R` when the
stored promise is unrevealed, absorbing accountant failures below the
threshold by returning early), then Steps B–E. -/
def receiveExchangeMessageOrTimeout (ops : CryptoOps) (env : RoundEnv)
    (it : InvoiceTracker) (intake : Intake) : Option Err × InvoiceTracker × List Event :=
  match intake with
  | .timeout => (some .exchangeWaitTimeout, it, [])
  | .stopSignal => (none, it, [])
  | .message pm =>
    match validateExchangeMessage ops env it pm with
    | some e => (some e, it, [])
    | none =>
      let it := { it with lastExchangeMessage := pm }
      let tr0 := [Event.setLastExchangeMessage pm, Event.promiseGot]
      match env.promiseGet with
      | .failure msg => (some (.wrap "could not get accountant promise" (.external msg)), it, tr0)
      | .notFound => stepsBtoE env it pm tr0
      | .found ap =>
        if !ap.revealed then
          let tr1 := tr0 ++ [Event.revealedR ap.r it.providerID.address ap.agreementID]
          match env.revealRResult with
          | some msg =>
            let it := { it with
              accountantFailureCount := (it.accountantFailureCount + 1) % u64Mod }
            if it.accountantFailureCount > it.maxAccountantFailureCount then
              (some (.wrap "could not call accountant" (.external msg)), it, tr1)
            else (none, it, tr1)
          | none =>
            let it := { it with accountantFailureCount := 0 }
            let ap := { ap with revealed := true }
            let tr2 := tr1 ++ [Event.storedAccountantPromise ap]
            match env.storeRevealedResult with
            | some msg => (some (.wrap "could not store accountant promise" (.external msg)), it, tr2)
            | none => stepsBtoE env it pm tr2
        else stepsBtoE env it pm tr0

/-- `handleExchangeMessageReceiveError`: absorb `ErrExchangeWaitTimeout`
while the incremented counter stays below the maximum; pass every other
error through. -/
def handleExchangeMessageReceiveError (it : InvoiceTracker) (e : Err) :
    Option Err × InvoiceTracker :=
  if e = .exchangeWaitTimeout then
    let it := { it with
      notReceivedExchangeMessageCount := (it.notReceivedExchangeMessageCount + 1) % u64Mod }
    if it.notReceivedExchangeMessageCount ≥ it.maxNotReceivedExchangeMessages then
      (some e, it)
    else (none, it)
  else (some e, it)

/-- The invoice `sendInvoiceExpectExchangeMessage` builds: the requested
amount is `uint64(math.Trunc(elapsed.Minutes() * price))`, truncated again
after the 0.8 first-billing leniency factor (here the exact rational 4/5);
the agreement id is carried over from `lastInvoice` and the hashlock is
`H(freshR)`. -/
def builtInvoice (ops : CryptoOps) (it : InvoiceTracker)
    (elapsedMinutes : ℚ) (freshR : List Nat) : Invoice :=
  let shouldBe0 := ratTrunc (elapsedMinutes * (it.priceAmount : ℚ))
  let shouldBe := if it.lastExchangeMessage.agreementTotal = 0
                  then ratTrunc ((shouldBe0 : ℚ) * (4 / 5)) else shouldBe0
  { createInvoice ops it.lastInvoice.invoice.agreementID shouldBe
      it.transactorFee freshR with provider := it.providerID.address }

/-- `sendInvoiceExpectExchangeMessage`: build and send the invoice, update
`lastInvoice`, store the invoice, then run
`receiveExchangeMessageOrTimeout` and the receive-error handler; a success
resets the not-received counter. -/
def sendInvoiceExpectExchangeMessage (ops : CryptoOps) (env : RoundEnv)
    (it : InvoiceTracker) (elapsedMinutes : ℚ) (freshR : List Nat) (intake : Intake) :
    Option Err × InvoiceTracker × List Event :=
  let invoice := builtInvoice ops it elapsedMinutes freshR
  match env.sendResult with
  | some msg => (some (.external msg), it, [.sentInvoice invoice])
  | none =>
    let it := { it with lastInvoice := ⟨invoice, freshR⟩ }
    match env.storeInvoiceResult with
    | some msg => (some (.wrap "could not store invoice" (.external msg)), it,
                   [.sentInvoice invoice, .storedInvoice invoice])
    | none =>
      let step := receiveExchangeMessageOrTimeout ops env it intake
      let base := [Event.sentInvoice invoice, Event.storedInvoice invoice]
      match step.1 with
      | some e =>
        let handled := handleExchangeMessageReceiveError step.2.1 e
        match handled.1 with
        | some _ => (some e, handled.2, base ++ step.2.2)
        | none => (none, handled.2, base ++ step.2.2)
      | none =>
        (none, { step.2.1 with notReceivedExchangeMessageCount := 0 }, base ++ step.2.2)

/-- The deps `NewInvoiceTracker` reads (restricted to the fields the round
functions consult). -/
structure InvoiceTrackerDeps where
  peer : Identity
  providerID : Identity
  accountantID : Identity
  priceAmount : Nat
  chargePeriod : Nat
  maxAccountantFailureCount : Nat
  maxRRecoveryLength : Nat

/-- `NewInvoiceTracker`: wires the deps; in particular
`maxNotReceivedExchangeMessages :=
calculateMaxNotReceivedExchangeMessageCount(chargePeriodLeeway, ChargePeriod)`.
Unset Go struct fields start at their zero values. -/
def newInvoiceTracker (itd : InvoiceTrackerDeps) : InvoiceTracker :=
  { peer := itd.peer
    providerID := itd.providerID
    accountantID := itd.accountantID
    priceAmount := itd.priceAmount
    chargePeriod := itd.chargePeriod
    maxNotReceivedExchangeMessages :=
      calculateMaxNotReceivedExchangeMessageCount chargePeriodLeeway itd.chargePeriod
    maxAccountantFailureCount := itd.maxAccountantFailureCount
    maxRRecoveryLength := itd.maxRRecoveryLength
    transactorFee := 0
    accountantFailureCount := 0
    notReceivedExchangeMessageCount := 0
    lastInvoice := ⟨⟨0, 0, 0, "", ""⟩, []⟩
    lastExchangeMessage := ⟨⟨0, 0, [], []⟩, 0, 0⟩ }

/-! ### Trace observations -/

/-- Whether an event is a peer-send or an invoice-store. -/
def isInvoiceEvent : Event → Bool
  | .sentInvoice _ => true
  | .storedInvoice _ => true
  | _ => false

/-- `storePrecedesSendB tr`: every send of an invoice in `tr` is preceded
by a store of that same invoice (the ordering §5 of the spec asserts). -/
def storePrecedesSendB (tr : List Event) : Bool :=
  (List.range tr.length).all fun j =>
    match tr[j]? with
    | some (.sentInvoice inv) => (tr.take j).any fun e => e == .storedInvoice inv
    | _ => true

/-- `sendPrecedesStoreB tr`: every store of an invoice in `tr` is preceded
by a send of that same invoice. -/
def sendPrecedesStoreB (tr : List Event) : Bool :=
  (List.range tr.length).all fun j =>
    match tr[j]? with
    | some (.storedInvoice inv) => (tr.take j).any fun e => e == .sentInvoice inv
    | _ => true

/-- The amount of the invoice sent first in a round's trace, if any. -/
def firstSentAmount (out : Option Err × InvoiceTracker × List Event) : Option Nat :=
  match out.2.2.head? with
  | some (.sentInvoice inv) => some inv.agreementTotal
  | _ => none

/-! ### Concrete fixtures for witnesses and counterexamples -/

/-- Crypto operations for concrete runs: every address prints as the hex
string `"0a"` (byte `[10]`) and the hash of anything is `"0a"`. -/
def opsX : CryptoOps :=
  { hexToAddress := fun _ => 0
    addressHex := fun _ => "0a"
    hashHex := fun _ => "0a" }

/-- A consumer promise consistent with `opsX` and `itX`. -/
def pX : Promise := { amount := 5, fee := 0, hashlock := [10], channelID := [10] }

/-- An exchange message that passes validation against `itX` under `opsX`
and `envOK`. -/
def emX : ExchangeMessage := { promise := pX, agreementID := 1, agreementTotal := 9 }

/-- The zero-valued exchange message (Go zero value). -/
def emZero : ExchangeMessage := { promise := ⟨0, 0, [], []⟩, agreementID := 0, agreementTotal := 0 }

/-- The last invoice held by `itX`. -/
def invX : Invoice :=
  { agreementID := 1, agreementTotal := 0, transactorFee := 0, hashlock := "0a", provider := "" }

/-- A tracker in mid-session state. -/
def itX : InvoiceTracker :=
  { peer := ⟨"0a"⟩
    providerID := ⟨"0b"⟩
    accountantID := ⟨"0c"⟩
    priceAmount := 1
    chargePeriod := 1000
    maxNotReceivedExchangeMessages := 3
    maxAccountantFailureCount := 3
    maxRRecoveryLength := 5
    transactorFee := 0
    accountantFailureCount := 0
    notReceivedExchangeMessageCount := 0
    lastInvoice := ⟨invX, [1]⟩
    lastExchangeMessage := emZero }

/-- An environment in which every external call succeeds and no stored
accountant promise exists yet. -/
def envOK : RoundEnv :=
  { isMessageValid := true
    recoverSigner := .ok 0
    channelAddr := .ok 0
    sendResult := none
    storeInvoiceResult := none
    promiseGet := .notFound
    revealRResult := none
    storeRevealedResult := none
    storeRResult := none
    requestPromiseResult := .ok pX
    storePromiseResult := none
    getR := fun _ => .ok "aa"
    recoveryReveal := fun _ => false }

/-- A stored, not yet revealed accountant promise. -/
def apX : AccountantPromise := { promise := pX, r := "bb", revealed := false, agreementID := 1 }

/-- `envOK` but with an unrevealed stored promise, so Step A reveals. -/
def envRevealOK : RoundEnv := { envOK with promiseGet := .found apX }

/-- `envOK` but with an unrevealed stored promise whose reveal fails. -/
def envRevealFail : RoundEnv :=
  { envOK with promiseGet := .found apX, revealRResult := some "boom" }

/-- `envOK` but with R-recovery reveals succeeding. -/
def envRec : RoundEnv := { envOK with recoveryReveal := fun _ => true }

/-- Concrete deps for `newInvoiceTracker`. -/
def itdX : InvoiceTrackerDeps :=
  { peer := ⟨"0a"⟩, providerID := ⟨"0b"⟩, accountantID := ⟨"0c"⟩
    priceAmount := 1, chargePeriod := 10000000
    maxAccountantFailureCount := 3, maxRRecoveryLength := 5 }

/-! ### Helper lemmas about round traces -/

theorem rRecoveryWalk_mem (env : RoundEnv) (p : String) (c : Nat) :
    ∀ ids : List Nat, ∀ e ∈ (rRecoveryWalk env p c ids).2,
      (∃ i ∈ ids, e = Event.gotR i) ∨ ∃ r, e = Event.revealedR r p c := by
  intro ids
  induction ids with
  | nil =>
    intro e he
    simp [rRecoveryWalk] at he
  | cons i rest ih =>
    intro e he
    rcases hg : env.getR i with msg | r
    · simp [rRecoveryWalk, hg] at he
      exact .inl ⟨i, by simp, he⟩
    · by_cases hr : env.recoveryReveal i
      · simp [rRecoveryWalk, hg, hr] at he
        rcases he with h | h
        · exact .inl ⟨i, by simp, h⟩
        · exact .inr ⟨r, h⟩
      · simp [rRecoveryWalk, hg, hr] at he
        rcases he with h | h | h
        · exact .inl ⟨i, by simp, h⟩
        · exact .inr ⟨r, h⟩
        · rcases ih e h with ⟨j, hj, hej⟩ | h'
          · exact .inl ⟨j, by simp [hj], hej⟩
          · exact .inr h'

theorem stepsBtoE_lastExchangeMessage (env : RoundEnv) (it : InvoiceTracker)
    (pm : ExchangeMessage) (tr : List Event) :
    (stepsBtoE env it pm tr).2.1.lastExchangeMessage = it.lastExchangeMessage := by
  unfold stepsBtoE
  rcases env.storeRResult with _ | msg
  · rcases env.requestPromiseResult with msg' | promise
    · simp only
      split
      · split
        · rfl
        · split <;> rfl
      · split <;> rfl
    · simp only
      split <;> rfl
  · rfl

theorem stepsBtoE_trace_head (env : RoundEnv) (it : InvoiceTracker)
    (pm : ExchangeMessage) (a : Event) (l : List Event) :
    (stepsBtoE env it pm (a :: l)).2.2.head? = some a := by
  unfold stepsBtoE
  rcases hsr : env.storeRResult with _ | msg
  · rcases hrp : env.requestPromiseResult with msg' | promise
    · simp only
      split
      · split
        · simp
        · split <;> simp
      · split <;> simp
    · simp only
      split <;> simp
  · simp

theorem stepsBtoE_no_invoice_event (env : RoundEnv) (it : InvoiceTracker)
    (pm : ExchangeMessage) (tr : List Event) :
    ∀ e ∈ (stepsBtoE env it pm tr).2.2, e ∈ tr ∨ isInvoiceEvent e = false := by
  have hwalk := rRecoveryWalk_mem env it.providerID.address it.lastInvoice.invoice.agreementID
  intro e he
  by_cases hmem : e ∈ tr
  · exact .inl hmem
  right
  simp only [stepsBtoE] at he
  rcases hsr : env.storeRResult with _ | msg <;> rw [hsr] at he
  · rcases hrp : env.requestPromiseResult with msg' | promise <;> rw [hrp] at he
    · by_cases h400 : strContains msg' "400 Bad Request" <;>
        simp only [h400, Bool.false_eq_true, ite_true, ite_false, if_true, if_false] at he
      · rcases hrec : (initiateRRecovery env it).1 with _ | e' <;> rw [hrec] at he <;>
          simp only [initiateRRecovery] at he
        · split at he <;>
          · simp at he
            rcases he with h | h | h | h
            · exact absurd h hmem
            · simp [h, isInvoiceEvent]
            · simp [h, isInvoiceEvent]
            · rcases hwalk _ _ h with ⟨j, _, hej⟩ | ⟨r, hej⟩ <;> simp [hej, isInvoiceEvent]
        · simp at he
          rcases he with h | h | h | h
          · exact absurd h hmem
          · simp [h, isInvoiceEvent]
          · simp [h, isInvoiceEvent]
          · rcases hwalk _ _ h with ⟨j, _, hej⟩ | ⟨r, hej⟩ <;> simp [hej, isInvoiceEvent]
      · split at he <;>
        · simp at he
          rcases he with h | h | h
          · exact absurd h hmem
          · simp [h, isInvoiceEvent]
          · simp [h, isInvoiceEvent]
    · rcases hsp : env.storePromiseResult with _ | msg2 <;> rw [hsp] at he
      · simp at he
        rcases he with h | h | h | h | h
        · exact absurd h hmem
        all_goals simp [h, isInvoiceEvent]
      · simp at he
        rcases he with h | h | h | h
        · exact absurd h hmem
        all_goals simp [h, isInvoiceEvent]
  · simp at he
    rcases he with h | h
    · exact absurd h hmem
    · simp [h, isInvoiceEvent]

theorem receive_no_invoice_event (ops : CryptoOps) (env : RoundEnv) (it : InvoiceTracker)
    (intake : Intake) :
    ∀ e ∈ (receiveExchangeMessageOrTimeout ops env it intake).2.2,
      isInvoiceEvent e = false := by
  intro e he
  rcases intake with pm | _ | _
  · simp only [receiveExchangeMessageOrTimeout] at he
    rcases hv : validateExchangeMessage ops env it pm with _ | err <;> rw [hv] at he
    · rcases hg : env.promiseGet with ap | _ | msg <;> rw [hg] at he
      · by_cases hr : ap.revealed
        · simp only [hr, Bool.not_true] at he
          rw [if_neg (by simp)] at he
          rcases stepsBtoE_no_invoice_event _ _ _ _ e he with h | h
          · simp at h
            rcases h with h | h <;> simp [h, isInvoiceEvent]
          · exact h
        · simp only [Bool.not_eq_true] at hr
          simp only [hr, Bool.not_false] at he
          rw [if_pos trivial] at he
          rcases hrev : env.revealRResult with _ | msg <;> simp only [hrev] at he
          · rcases hstr : env.storeRevealedResult with _ | msg <;> simp only [hstr] at he
            · rcases stepsBtoE_no_invoice_event _ _ _ _ e he with h | h
              · simp at h
                rcases h with h | h | h | h <;> simp [h, isInvoiceEvent]
              · exact h
            · simp at he
              rcases he with h | h | h | h <;> simp [h, isInvoiceEvent]
          · split at he <;>
            · simp at he
              rcases he with h | h | h <;> simp [h, isInvoiceEvent]
      · rcases stepsBtoE_no_invoice_event _ _ _ _ e he with h | h
        · simp at h
          rcases h with h | h <;> simp [h, isInvoiceEvent]
        · exact h
      · simp at he
        rcases he with h | h <;> simp [h, isInvoiceEvent]
    · simp at he
  · simp [receiveExchangeMessageOrTimeout] at he
  · simp [receiveExchangeMessageOrTimeout] at he

theorem sendPrecedesStore_cons (inv : Invoice) (rest : List Event)
    (h : ∀ e ∈ rest, isInvoiceEvent e = false) :
    sendPrecedesStoreB (Event.sentInvoice inv :: Event.storedInvoice inv :: rest) = true := by
  simp only [sendPrecedesStoreB, List.all_eq_true, List.mem_range]
  intro j hj
  match j with
  | 0 => simp
  | 1 => simp
  | (n + 2) =>
    simp only [List.getElem?_cons_succ]
    rcases hr : rest[n]? with _ | ev
    · simp [hr]
    · have hne := h ev (List.getElem?_mem hr)
      cases ev <;> simp_all [isInvoiceEvent]

/-- The trace of a round: the send alone (send failed), send then store
(store failed), or send, store, then the receive step's trace. -/
theorem sendInvoice_trace_shape (ops : CryptoOps) (env : RoundEnv) (it : InvoiceTracker)
    (e : ℚ) (r : List Nat) (intake : Intake) :
    (sendInvoiceExpectExchangeMessage ops env it e r intake).2.2 =
        [Event.sentInvoice (builtInvoice ops it e r)] ∨
    (sendInvoiceExpectExchangeMessage ops env it e r intake).2.2 =
        Event.sentInvoice (builtInvoice ops it e r) ::
          Event.storedInvoice (builtInvoice ops it e r) ::
          (receiveExchangeMessageOrTimeout ops env
            { it with lastInvoice := ⟨builtInvoice ops it e r, r⟩ } intake).2.2 ∨
    (sendInvoiceExpectExchangeMessage ops env it e r intake).2.2 =
        [Event.sentInvoice (builtInvoice ops it e r),
         Event.storedInvoice (builtInvoice ops it e r)] := by
  simp only [sendInvoiceExpectExchangeMessage]
  rcases hs : env.sendResult with _ | msg
  · rcases hsi : env.storeInvoiceResult with _ | msg
    · right; left
      simp only []
      split
      · split <;> simp
      · simp
    · right; right; simp
  · left; simp

theorem stepsBtoE_trace_take (env : RoundEnv) (it : InvoiceTracker)
    (pm : ExchangeMessage) (tr : List Event) :
    ((stepsBtoE env it pm tr).2.2).take tr.length = tr := by
  unfold stepsBtoE
  rcases env.storeRResult with _ | msg
  · rcases env.requestPromiseResult with msg' | promise
    · simp only
      split
      · split
        · simp only [List.append_assoc]
          exact List.take_left _ _
        · split <;>
          · simp only [List.append_assoc]
            exact List.take_left _ _
      · split <;>
        · simp only [List.append_assoc]
          exact List.take_left _ _
    · simp only
      split <;>
      · simp only [List.append_assoc]
        exact List.take_left _ _
  · exact List.take_left _ _

theorem stepsBtoE_storedR_mem (env : RoundEnv) (it : InvoiceTracker)
    (pm : ExchangeMessage) (tr : List Event) :
    Event.storedR it.lastInvoice.invoice.agreementID (hexEncode it.lastInvoice.r) ∈
      (stepsBtoE env it pm tr).2.2 := by
  unfold stepsBtoE
  rcases env.storeRResult with _ | msg
  · rcases env.requestPromiseResult with msg' | promise
    · simp only
      split
      · split
        · simp
        · split <;> simp
      · split <;> simp
    · simp only
      split <;> simp
  · simp

theorem stepsBtoE_requested_mem (env : RoundEnv) (it : InvoiceTracker)
    (pm : ExchangeMessage) (tr : List Event) (h : env.storeRResult = none) :
    Event.requestedPromise pm ∈ (stepsBtoE env it pm tr).2.2 := by
  unfold stepsBtoE
  simp only [h]
  rcases env.requestPromiseResult with msg' | promise
  · simp only
    split
    · split
      · simp
      · split <;> simp
    · split <;> simp
  · simp only
    split <;> simp

/-! ### Claims -/

/-- C1: the spec claims `store(invoice)` precedes sending for every round,
but the code sends the invoice through the peer transport first and only
then persists it: on a concrete round the trace ordering predicate "every
send is preceded by the store of the same invoice" evaluates to false. -/
theorem C1_counterexample :
    storePrecedesSendB
      (sendInvoiceExpectExchangeMessage opsX envOK itX 1 [2] Intake.timeout).2.2 = false := by
  rfl

/-- C1 (amended): for every round of a given agreement, the invoice is
sent through the peer transport first, and `invoice_storage.Store` of that
same invoice runs strictly after the send (and only when the send
succeeded). -/
theorem C1_send_precedes_store (ops : CryptoOps) (env : RoundEnv) (it : InvoiceTracker)
    (e : ℚ) (r : List Nat) (intake : Intake) :
    sendPrecedesStoreB (sendInvoiceExpectExchangeMessage ops env it e r intake).2.2 = true := by
  rcases sendInvoice_trace_shape ops env it e r intake with h | h | h <;> rw [h]
  · rfl
  · exact sendPrecedesStore_cons _ _ (receive_no_invoice_event _ _ _ _)
  · exact sendPrecedesStore_cons _ [] (by simp)

/-- C2: the claim says the first invoice carries amount zero; in the code
`generateInitialInvoice` passes the configured price amount as the amount
and the literal `0` as the transactor fee, so with price 7 the materialized
first invoice carries amount 7, not 0. -/
theorem C2_counterexample :
    ((generateInitialInvoice opsX { itX with priceAmount := 7 }
        (.ok 5) [9]).2.1).lastInvoice.invoice.agreementTotal = 7 ∧ (7 : Nat) ≠ 0 := by
  exact ⟨rfl, by decide⟩

/-- C2 (amended): the first invoice materialized at start carries the
payment rate's price amount as its amount and a zero transactor fee, the
given fresh `R` with hashlock `H(R)`, the agreement id newly allocated via
persistence, and is recorded only in memory as `lastInvoice` — the trace
holds no invoice-store event, only the agreement-id allocation. -/
theorem C2_initial_invoice (ops : CryptoOps) (it : InvoiceTracker) (aid : Nat) (r : List Nat) :
    generateInitialInvoice ops it (.ok aid) r =
      (none,
       { it with lastInvoice :=
           ⟨{ agreementID := aid
              agreementTotal := it.priceAmount
              transactorFee := 0
              hashlock := ops.hashHex r
              provider := it.providerID.address }, r⟩ },
       [Event.gotNewAgreementID]) := rfl

/-- C3: in Step A, when the reveal of the previous promise's `R` fails,
the failure counter is incremented; if the incremented count does not
exceed `maxAccountantFailureCount` the round returns `Ok` with the trace
ending at the reveal — no `StoreR`, no `RequestPromise`, no promise store
and no publish happen; if it exceeds the maximum the round returns the
fatal wrapped accountant error. -/
theorem C3_stepA_failure (ops : CryptoOps) (env : RoundEnv) (it : InvoiceTracker)
    (pm : ExchangeMessage) (ap : AccountantPromise) (msg : String)
    (hv : validateExchangeMessage ops env it pm = none)
    (hg : env.promiseGet = .found ap)
    (hr : ap.revealed = false)
    (hf : env.revealRResult = some msg) :
    (receiveExchangeMessageOrTimeout ops env it (Intake.message pm)).2.2 =
      [Event.setLastExchangeMessage pm, Event.promiseGot,
       Event.revealedR ap.r it.providerID.address ap.agreementID] ∧
    (receiveExchangeMessageOrTimeout ops env it (Intake.message pm)).2.1.accountantFailureCount
      = (it.accountantFailureCount + 1) % u64Mod ∧
    ((it.accountantFailureCount + 1) % u64Mod ≤ it.maxAccountantFailureCount →
      (receiveExchangeMessageOrTimeout ops env it (Intake.message pm)).1 = none) ∧
    (it.maxAccountantFailureCount < (it.accountantFailureCount + 1) % u64Mod →
      (receiveExchangeMessageOrTimeout ops env it (Intake.message pm)).1 =
        some (Err.wrap "could not call accountant" (Err.external msg))) := by
  simp only [receiveExchangeMessageOrTimeout, hv, hg, hr, Bool.not_false, hf]
  rw [if_pos trivial]
  by_cases hc : it.maxAccountantFailureCount < (it.accountantFailureCount + 1) % u64Mod
  · rw [if_pos hc]
    exact ⟨rfl, rfl, fun hle => absurd hc (by omega), fun _ => rfl⟩
  · rw [if_neg hc]
    exact ⟨rfl, rfl, fun _ => rfl, fun hlt => absurd hlt hc⟩

/-- Witness for C3: concrete absorbed reveal failure. -/
theorem C3_witness :
    (receiveExchangeMessageOrTimeout opsX envRevealFail itX (Intake.message emX)).2.2 =
      [Event.setLastExchangeMessage emX, Event.promiseGot, Event.revealedR "bb" "0b" 1] ∧
    (receiveExchangeMessageOrTimeout opsX envRevealFail itX (Intake.message emX)).1 = none := by
  have h := C3_stepA_failure opsX envRevealFail itX emX apX "boom" (by decide) rfl rfl rfl
  exact ⟨h.1, h.2.2.1 (by decide)⟩

/-- C9: whenever a received exchange message passes validation, it is
recorded as `lastExchangeMessage` before any accountant or storage
interaction of the round — the record update is the first trace event —
and the update is kept in the final state under every environment, in
particular when the round later returns `Ok` after an absorbed accountant
failure. -/
theorem C9_last_exchange_message (ops : CryptoOps) (env : RoundEnv) (it : InvoiceTracker)
    (pm : ExchangeMessage)
    (hv : validateExchangeMessage ops env it pm = none) :
    (receiveExchangeMessageOrTimeout ops env it (Intake.message pm)).2.1.lastExchangeMessage
        = pm ∧
    (receiveExchangeMessageOrTimeout ops env it (Intake.message pm)).2.2.head? =
        some (Event.setLastExchangeMessage pm) := by
  simp only [receiveExchangeMessageOrTimeout, hv]
  rcases hg : env.promiseGet with ap | _ | msg <;> simp only [hg]
  · by_cases hr : ap.revealed
    · simp only [hr, Bool.not_true]
      rw [if_neg (by simp)]
      exact ⟨stepsBtoE_lastExchangeMessage _ _ _ _, stepsBtoE_trace_head _ _ _ _ _⟩
    · simp only [Bool.not_eq_true] at hr
      simp only [hr, Bool.not_false]
      rw [if_pos trivial]
      rcases hrev : env.revealRResult with _ | msg <;> simp only [hrev]
      · rcases hstr : env.storeRevealedResult with _ | msg <;> simp only [hstr]
        · exact ⟨stepsBtoE_lastExchangeMessage _ _ _ _, stepsBtoE_trace_head _ _ _ _ _⟩
        · refine ⟨?_, ?_⟩ <;> simp
      · split <;> (refine ⟨?_, ?_⟩ <;> simp)
  · exact ⟨stepsBtoE_lastExchangeMessage _ _ _ _, stepsBtoE_trace_head _ _ _ _ _⟩
  · refine ⟨?_, ?_⟩ <;> simp

/-- Witness for C9: a concrete validated message recorded and kept. -/
theorem C9_witness :
    (receiveExchangeMessageOrTimeout opsX envRevealFail itX
        (Intake.message emX)).2.1.lastExchangeMessage = emX ∧
    (receiveExchangeMessageOrTimeout opsX envRevealFail itX
        (Intake.message emX)).2.2.head? = some (Event.setLastExchangeMessage emX) :=
  C9_last_exchange_message opsX envRevealFail itX emX (by decide)

/-- C5: the claim says a successful Step-A reveal makes the round return
early, skipping Steps B–E; in the code, after a successful reveal the
round falls through and performs `StoreR` and `RequestPromise` in the same
round, as this concrete trace shows. -/
theorem C5_counterexample :
    Event.storedR 1 "01" ∈
      (receiveExchangeMessageOrTimeout opsX envRevealOK itX (Intake.message emX)).2.2 ∧
    Event.requestedPromise emX ∈
      (receiveExchangeMessageOrTimeout opsX envRevealOK itX (Intake.message emX)).2.2 := by
  decide

/-- C5 (amended): after a successful reveal during Step A the tracker
flips `revealed` to true and re-stores the record, and then — far from
returning early — proceeds with Steps B–E in the same round: the trace
continues with `StoreR` and (when `StoreR` succeeds) `RequestPromise`.
The early return in Step A happens only on a failed reveal below the
failure threshold. -/
theorem C5_reveal_success_continues (ops : CryptoOps) (env : RoundEnv) (it : InvoiceTracker)
    (pm : ExchangeMessage) (ap : AccountantPromise)
    (hv : validateExchangeMessage ops env it pm = none)
    (hg : env.promiseGet = .found ap)
    (hr : ap.revealed = false)
    (hrev : env.revealRResult = none)
    (hst : env.storeRevealedResult = none) :
    ((receiveExchangeMessageOrTimeout ops env it (Intake.message pm)).2.2).take 4 =
      [Event.setLastExchangeMessage pm, Event.promiseGot,
       Event.revealedR ap.r it.providerID.address ap.agreementID,
       Event.storedAccountantPromise { ap with revealed := true }] ∧
    Event.storedR it.lastInvoice.invoice.agreementID (hexEncode it.lastInvoice.r) ∈
      (receiveExchangeMessageOrTimeout ops env it (Intake.message pm)).2.2 ∧
    (env.storeRResult = none → Event.requestedPromise pm ∈
      (receiveExchangeMessageOrTimeout ops env it (Intake.message pm)).2.2) := by
  simp only [receiveExchangeMessageOrTimeout, hv, hg, hr, Bool.not_false, hrev, hst]
  rw [if_pos trivial]
  refine ⟨?_, stepsBtoE_storedR_mem _ _ _ _, fun h => stepsBtoE_requested_mem _ _ _ _ h⟩
  have htk := stepsBtoE_trace_take env
      { it with lastExchangeMessage := pm, accountantFailureCount := 0 } pm
      ([Event.setLastExchangeMessage pm, Event.promiseGot] ++
        [Event.revealedR ap.r it.providerID.address ap.agreementID] ++
        [Event.storedAccountantPromise { ap with revealed := true }])
  simpa using htk

/-- Witness for C5: the concrete successful-reveal round. -/
theorem C5_witness :
    ((receiveExchangeMessageOrTimeout opsX envRevealOK itX (Intake.message emX)).2.2).take 4 =
      [Event.setLastExchangeMessage emX, Event.promiseGot, Event.revealedR "bb" "0b" 1,
       Event.storedAccountantPromise
         { promise := pX, r := "bb", revealed := true, agreementID := 1 }] :=
  (C5_reveal_success_continues opsX envRevealOK itX emX apX (by decide) rfl rfl rfl rfl).1

/-- C6: with the outer signature valid and the promise signer recovering
to the consumer's address, the validator fails with the invalid-amount
consumer-promise error exactly when the new promise amount is strictly
below the previous one — an equal amount passes the monotone check — and
an invalid outer signature short-circuits the whole validator first. -/
theorem C6_validator (ops : CryptoOps) (env : RoundEnv) (it : InvoiceTracker)
    (em : ExchangeMessage)
    (hm : env.isMessageValid = true)
    (hs : env.recoverSigner = .ok (ops.hexToAddress it.peer.address)) :
    (validateExchangeMessage ops env it em =
        some (Err.wrap "invalid amount" Err.consumerPromiseValidationFailed) ↔
      em.promise.amount < it.lastExchangeMessage.promise.amount) ∧
    (∀ env2 : RoundEnv, env2.isMessageValid = false →
      validateExchangeMessage ops env2 it em = some Err.exchangeValidationFailed) := by
  constructor
  · simp only [validateExchangeMessage, hm, hs, Bool.not_true]
    rw [if_neg (by simp)]
    rw [if_neg (by simp)]
    by_cases hlt : em.promise.amount < it.lastExchangeMessage.promise.amount
    · rw [if_pos hlt]
      simp [hlt]
    · rw [if_neg hlt]
      refine iff_of_false ?_ hlt
      intro h
      rcases hd : hexDecode (trim0x it.lastInvoice.invoice.hashlock) with _ | hl <;>
        simp only [hd] at h
      · simp at h
      · split at h
        · simp at h
        · rcases hca : env.channelAddr with msg | addr <;> simp only [hca] at h
          · simp at h
          · rcases he2 : hexDecode (trim0x (ops.addressHex addr)) with _ | ec <;>
              simp only [he2] at h
            · simp at h
            · split at h <;> simp at h
  · intro env2 h2
    simp [validateExchangeMessage, h2]

/-- Witness for C6: the concrete valid message is not rejected for its
amount. -/
theorem C6_witness :
    validateExchangeMessage opsX envOK itX emX ≠
      some (Err.wrap "invalid amount" Err.consumerPromiseValidationFailed) := by
  intro hc
  exact absurd ((C6_validator opsX envOK itX emX rfl rfl).1.mp hc) (by decide)

/-- C7: the claim computes the first-billing amount as
`floor(elapsed × price × 0.8)`; the code truncates `elapsed × price` to an
integer first and applies 0.8 to the truncated value: at elapsed 3/2 min
and price 1 the code asks for 0 while the claimed formula gives 1. -/
theorem C7_counterexample :
    firstSentAmount
        (sendInvoiceExpectExchangeMessage opsX envOK itX (3 / 2) [2] Intake.timeout)
      = some 0 ∧
    (⌊(3 / 2 : ℚ) * ((1 : Nat) : ℚ) * (4 / 5)⌋₊ : Nat) = 1 := by
  constructor
  · with_unfolding_all rfl
  · push_cast
    rw [Nat.floor_eq_iff (by norm_num)]
    norm_num

/-- C7 (amended): the amount of the invoice sent in a round is
`⌊elapsed_minutes × price⌋` for a later round, and for the first billing
round (`last_exchange_message.agreement_total = 0`) it is
`⌊(⌊elapsed_minutes × price⌋ : ℚ) × 0.8⌋` — the 0.8 leniency factor is
applied to the already-truncated amount, not inside a single floor. -/
theorem C7_amount (ops : CryptoOps) (env : RoundEnv) (it : InvoiceTracker)
    (e : ℚ) (r : List Nat) (intake : Intake) (he : 0 ≤ e) :
    firstSentAmount (sendInvoiceExpectExchangeMessage ops env it e r intake) =
      some (if it.lastExchangeMessage.agreementTotal = 0
            then ⌊((⌊e * (it.priceAmount : ℚ)⌋₊ : Nat) : ℚ) * (4 / 5)⌋₊
            else ⌊e * (it.priceAmount : ℚ)⌋₊) := by
  have hfl : ∀ q : ℚ, ratTrunc q = ⌊q⌋₊ := fun q => Int.floor_toNat q
  rcases sendInvoice_trace_shape ops env it e r intake with h | h | h <;>
    simp only [firstSentAmount, h, List.head?_cons] <;>
    simp only [builtInvoice, createInvoice, hfl]

/-- Witness for C7: a concrete first-billing round. -/
theorem C7_witness :
    firstSentAmount (sendInvoiceExpectExchangeMessage opsX envOK itX 2 [2] Intake.timeout) =
      some (if itX.lastExchangeMessage.agreementTotal = 0
            then ⌊((⌊(2 : ℚ) * ((itX.priceAmount : Nat) : ℚ)⌋₊ : Nat) : ℚ) * (4 / 5)⌋₊
            else ⌊(2 : ℚ) * ((itX.priceAmount : Nat) : ℚ)⌋₊) :=
  C7_amount opsX envOK itX 2 [2] Intake.timeout (by norm_num)

/-- C4: on a round whose receive step times out (send and store having
succeeded), the not-received counter is incremented, and the round returns
the `ExchangeWaitTimeout` error exactly when the incremented count reaches
`maxNotReceivedExchangeMessages` — below it the round returns `Ok`;
`NewInvoiceTracker` wires that maximum to
`round(2h / charge_period)` = `calculateMaxNotReceivedExchangeMessageCount`;
and whenever the receive step succeeds the counter is reset to zero. -/
theorem C4_timeout_threshold (ops : CryptoOps) (env : RoundEnv) (it : InvoiceTracker)
    (e : ℚ) (r : List Nat) (itd : InvoiceTrackerDeps)
    (hsend : env.sendResult = none) (hstore : env.storeInvoiceResult = none) :
    (((sendInvoiceExpectExchangeMessage ops env it e r
        Intake.timeout).2.1).notReceivedExchangeMessageCount
      = (it.notReceivedExchangeMessageCount + 1) % u64Mod) ∧
    ((sendInvoiceExpectExchangeMessage ops env it e r Intake.timeout).1 =
        some Err.exchangeWaitTimeout ↔
      it.maxNotReceivedExchangeMessages ≤
        (it.notReceivedExchangeMessageCount + 1) % u64Mod) ∧
    ((sendInvoiceExpectExchangeMessage ops env it e r Intake.timeout).1 = none ↔
      (it.notReceivedExchangeMessageCount + 1) % u64Mod <
        it.maxNotReceivedExchangeMessages) ∧
    ((newInvoiceTracker itd).maxNotReceivedExchangeMessages =
      calculateMaxNotReceivedExchangeMessageCount chargePeriodLeeway itd.chargePeriod) ∧
    (∀ intake,
      (receiveExchangeMessageOrTimeout ops env
          { it with lastInvoice := ⟨builtInvoice ops it e r, r⟩ } intake).1 = none →
      ((sendInvoiceExpectExchangeMessage ops env it e r
          intake).2.1).notReceivedExchangeMessageCount = 0) := by
  refine ⟨?_, ?_, ?_, rfl, ?_⟩
  all_goals
    simp only [sendInvoiceExpectExchangeMessage, hsend, hstore,
      receiveExchangeMessageOrTimeout, handleExchangeMessageReceiveError]
  · rw [if_pos trivial]
    split <;> split <;> rfl
  · rw [if_pos trivial]
    by_cases hth : it.maxNotReceivedExchangeMessages ≤
        (it.notReceivedExchangeMessageCount + 1) % u64Mod
    · rw [if_pos hth]
      simp [hth]
    · rw [if_neg hth]
      simp [hth]
  · rw [if_pos trivial]
    by_cases hth : it.maxNotReceivedExchangeMessages ≤
        (it.notReceivedExchangeMessageCount + 1) % u64Mod
    · rw [if_pos hth]
      simp
      omega
    · rw [if_neg hth]
      simp
      omega
  · intro intake h
    simp only [h]

/-- Witness for C4: a concrete absorbed timeout (count 1, maximum 3). -/
theorem C4_witness :
    (sendInvoiceExpectExchangeMessage opsX envOK itX 0 [2] Intake.timeout).1 = none ∧
    ((sendInvoiceExpectExchangeMessage opsX envOK itX 0 [2]
        Intake.timeout).2.1).notReceivedExchangeMessageCount = (0 + 1) % u64Mod := by
  have h := C4_timeout_threshold opsX envOK itX 0 [2] itdX rfl rfl
  exact ⟨h.2.2.1.mpr (by decide), h.1⟩

/-- C8: R-recovery walks the agreement ids backward from the current one
down to `max(1, current − maxRRecoveryLength)`; a `GetR` failure at the
first walked id is fatal immediately; a successful reveal at the first
walked id ends the walk with `Ok`, the reveal being issued for the
*current* agreement id (as every reveal of the walk is); and if every id
loads but no reveal succeeds the walk ends with the R-recovery-failed
error. -/
theorem C8_r_recovery (env : RoundEnv) (it : InvoiceTracker) :
    (initiateRRecovery env it =
      rRecoveryWalk env it.providerID.address it.lastInvoice.invoice.agreementID
        (recoveryIds it.lastInvoice.invoice.agreementID
          (max 1 (it.lastInvoice.invoice.agreementID - it.maxRRecoveryLength)))) ∧
    (∀ p c i rest msg, env.getR i = .error msg →
      rRecoveryWalk env p c (i :: rest) =
        (some (Err.wrap "could not get R" (Err.external msg)), [Event.gotR i])) ∧
    (∀ p c i rest rr, env.getR i = .ok rr → env.recoveryReveal i = true →
      rRecoveryWalk env p c (i :: rest) =
        (none, [Event.gotR i, Event.revealedR rr p c])) ∧
    (∀ p c ids, (∀ i ∈ ids, (∃ rr, env.getR i = .ok rr) ∧ env.recoveryReveal i = false) →
      (rRecoveryWalk env p c ids).1 = some (Err.newError "R recovery failed")) ∧
    (∀ p c ids rr p2 a, Event.revealedR rr p2 a ∈ (rRecoveryWalk env p c ids).2 →
      p2 = p ∧ a = c) := by
  refine ⟨?_, ?_, ?_, ?_, ?_⟩
  · simp only [initiateRRecovery]
    have hmb : (if it.lastInvoice.invoice.agreementID > it.maxRRecoveryLength then
        it.lastInvoice.invoice.agreementID - it.maxRRecoveryLength else 1) =
        max 1 (it.lastInvoice.invoice.agreementID - it.maxRRecoveryLength) := by
      split <;> omega
    rw [hmb]
  · intro p c i rest msg hget
    simp [rRecoveryWalk, hget]
  · intro p c i rest rr hget hrev
    simp [rRecoveryWalk, hget, hrev]
  · intro p c ids hall
    induction ids with
    | nil => rfl
    | cons i rest ih =>
      rcases hall i (by simp) with ⟨⟨rr, hok⟩, hrev⟩
      simp only [rRecoveryWalk, hok, hrev, Bool.false_eq_true, if_false]
      exact ih fun j hj => hall j (by simp [hj])
  · intro p c ids rr p2 a hmem
    rcases rRecoveryWalk_mem env p c ids _ hmem with ⟨j, _, hj⟩ | ⟨r2, hj⟩
    · exact absurd hj (by simp)
    · rw [Event.revealedR.injEq] at hj
      exact ⟨hj.2.1, hj.2.2⟩

/-- Witness for C8: the walk over ids [3, 2] with a succeeding reveal
stops at the first id, and the recovery entry point equals the walk over
the `max`-bounded range. -/
theorem C8_witness :
    rRecoveryWalk envRec "0b" 7 [3, 2] = (none, [Event.gotR 3, Event.revealedR "aa" "0b" 7]) ∧
    initiateRRecovery envRec itX =
      rRecoveryWalk envRec itX.providerID.address itX.lastInvoice.invoice.agreementID
        (recoveryIds itX.lastInvoice.invoice.agreementID
          (max 1 (itX.lastInvoice.invoice.agreementID - itX.maxRRecoveryLength))) := by
  have h := C8_r_recovery envRec itX
  exact ⟨h.2.2.1 "0b" 7 3 [2] "aa" rfl rfl, h.1⟩

/-- C10: with `lastInvoice.agreementID = 0` the R-recovery walk is empty
and the walk fails immediately with no `GetR` and no reveal; in general
the walk visits at most `maxRRecoveryLength + 1` ids and every visited id
is at least 1, so the unsigned id never underflows. -/
theorem C10_r_recovery_empty (env : RoundEnv) (it : InvoiceTracker)
    (h0 : it.lastInvoice.invoice.agreementID = 0) :
    initiateRRecovery env it = (some (Err.newError "R recovery failed"), []) ∧
    (∀ cur : Nat,
      (recoveryIds cur (if cur > it.maxRRecoveryLength
          then cur - it.maxRRecoveryLength else 1)).length ≤ it.maxRRecoveryLength + 1) ∧
    (∀ cur i, i ∈ recoveryIds cur (if cur > it.maxRRecoveryLength
        then cur - it.maxRRecoveryLength else 1) → 1 ≤ i) := by
  refine ⟨?_, ?_, ?_⟩
  · simp only [initiateRRecovery, h0]
    rw [if_neg (by omega)]
    rfl
  · intro cur
    by_cases h : cur > it.maxRRecoveryLength <;>
      simp only [recoveryIds, h, if_true, if_false, Bool.false_eq_true,
        List.length_reverse, List.length_range'] <;>
      omega
  · intro cur i hi
    simp only [recoveryIds, List.mem_reverse] at hi
    rw [List.mem_range'_1] at hi
    by_cases h : cur > it.maxRRecoveryLength <;> simp only [h, if_true, if_false] at hi <;>
      omega

/-- Witness for C10: a tracker at agreement id 0. -/
theorem C10_witness :
    initiateRRecovery envOK
        { itX with lastInvoice := ⟨{ invX with agreementID := 0 }, [1]⟩ } =
      (some (Err.newError "R recovery failed"), []) :=
  (C10_r_recovery_empty envOK
    { itX with lastInvoice := ⟨{ invX with agreementID := 0 }, [1]⟩ } rfl).1

end Pingpong
